import Mathlib

/-
  Verification of the notstd concurrent caching and request-coalescing layer.

  The Go code is embedded shallowly: each mutex-protected critical section
  becomes one atomic step on an explicit state record, the one-slot
  subscriber channels become explicit channel-state values, wall-clock time
  becomes an explicit Nat parameter, and fallible calls return Except or
  Option. Generators and fetchers, which are opaque callbacks in the code,
  are modelled by the outcomes they produce.
-/

namespace Notstd

/-- Go record Result[T] (error_line.go): a value together with an optional error. -/
structure Result (T : Type) where
  result : T
  error : Option String
deriving DecidableEq

/-- The zero value of Result[T], what Go returns for the literal Result[T]\x7b\x7d. -/
def zeroResult (T : Type) [Inhabited T] : Result T :=
  { result := default, error := none }

/-- A subscriber channel of ResultWaiterFactory: a fresh one-slot buffered
channel; the producer either sends the result and closes it, or closes it
empty; the waiting side reads it only after that. -/
inductive SubChan (T : Type) where
  | pending
  | filled (r : Result T)
  | closedEmpty
deriving DecidableEq

/-- The mutex-protected state of one ResultWaiterFactory instance
(error_line.go lines 51-59): completion flag, result presence flag, the
stored outcome, the subscriber registry and the next subscriber id. -/
structure FutureState (T : Type) where
  done : Bool
  hasResult : Bool
  result : Result T
  subs : List (Nat × SubChan T)
  nextID : Nat
deriving DecidableEq

/-- The state right after ResultWaiterFactory is called. -/
def initFuture (T : Type) [Inhabited T] : FutureState T :=
  { done := false, hasResult := false, result := zeroResult T, subs := [], nextID := 0 }

/-- The producer critical section (error_line.go lines 61-76): after receiving
from resultCh (some r when ok, none when the channel was closed without a
value) it sets done, stores the result when one arrived, and then, for every
registered subscriber channel, sends the result when present and closes the
channel. Every registered channel is still a fresh pending one-slot channel at
this point, so the send never blocks; the registry itself is left as is. -/
def completeStep (s : FutureState T) (input : Option (Result T)) : FutureState T :=
  match input with
  | some r =>
      { done := true
        hasResult := true
        result := r
        subs := s.subs.map (fun p => (p.1, SubChan.filled r))
        nextID := s.nextID }
  | none =>
      { done := true
        hasResult := s.hasResult
        result := s.result
        subs := s.subs.map (fun p =>
          (p.1, if s.hasResult then SubChan.filled s.result else SubChan.closedEmpty))
        nextID := s.nextID }

/-- What the first locked section of Wait produces: either the cached outcome
or a fresh registration. -/
inductive WaitEntry (T : Type) where
  | immediate (r : Result T) (ok : Bool)
  | registered (id : Nat)
deriving DecidableEq

/-- The first locked section of Wait (error_line.go lines 79-90): when done,
return the cached outcome at once; otherwise register a fresh pending
subscriber channel under the next id. -/
def waitEnter (s : FutureState T) : WaitEntry T × FutureState T :=
  if s.done then (WaitEntry.immediate s.result s.hasResult, s)
  else (WaitEntry.registered s.nextID,
    { s with subs := s.subs ++ [(s.nextID, SubChan.pending)], nextID := s.nextID + 1 })

/-- Receiving from a subscriber channel once the producer has run: a sent value
yields (r, true), a closed empty channel yields the zero Result and false; a
pending channel would still block (none). -/
def chanRecv [Inhabited T] : SubChan T → Option (Result T × Bool)
  | SubChan.pending => none
  | SubChan.filled r => some (r, true)
  | SubChan.closedEmpty => some (zeroResult T, false)

/-- Registry lookup by subscriber id (the subs map of the factory). -/
def lookupSub (s : FutureState T) (id : Nat) : Option (SubChan T) :=
  (s.subs.find? (fun p => p.1 == id)).map (fun p => p.2)

/-- The ctx.Done branch of Wait (error_line.go lines 93-97): remove exactly the
own subscription under the lock and return the zero Result with false. -/
def waitCancel (T : Type) [Inhabited T] (s : FutureState T) (id : Nat) :
    (Result T × Bool) × FutureState T :=
  ((zeroResult T, false), { s with subs := s.subs.filter (fun p => p.1 != id) })

/-- The observable state of a Store[K, ResultWaiterFn[V]] used as a dedup
table: which waiter id (if any) each key maps to, how many producer
computations were launched so far, and the id for the next waiter. -/
structure DedupState (K : Type) where
  table : K → Option Nat
  launches : Nat
  nextID : Nat

/-- StoreResultWaiter (error_line.go lines 114-126): WaitResult(fn) spawns the
producer goroutine unconditionally - one more launch - and store.Set then
overwrites whatever waiter the table already held for the key. There is no
presence check anywhere on this path. -/
def StoreResultWaiter [DecidableEq K] (s : DedupState K) (key : K) : DedupState K :=
  { table := fun k => if k = key then some s.nextID else s.table k
    launches := s.launches + 1
    nextID := s.nextID + 1 }

/-- GetResultWaiter (error_line.go lines 128-134): look the key up under the
read lock and join the waiter when present; no producer is launched here and
the table is not changed. -/
def GetResultWaiter (s : DedupState K) (key : K) : Option Nat × DedupState K :=
  (s.table key, s)

/-- UpdateStrategy (json.go lines 39-61). -/
inductive UpdateStrategy where
  | StrategyReplace
  | StrategyMerge
  | StrategyUpsertOnly
  | StrategyIncremental
deriving DecidableEq

/-- One insertion into the Store map held by the sink. -/
def storeInsert [DecidableEq K] (m : K → Option V) (key : K) (v : V) : K → Option V :=
  fun k => if k = key then some v else m k

/-- StoreSink.Apply (json.go lines 78-106): under the store lock, Replace
rebuilds the map from the fetched data alone, while Merge, UpsertOnly and
Incremental all run the same upsert loop over the fetched data on top of the
existing map. The fetched Go map is embedded as a key-value list. -/
def applyStoreSink [DecidableEq K] (strategy : UpdateStrategy) (m : K → Option V)
    (data : List (K × V)) : K → Option V :=
  match strategy with
  | UpdateStrategy.StrategyReplace =>
      data.foldl (fun acc kv => storeInsert acc kv.1 kv.2) (fun _ => none)
  | UpdateStrategy.StrategyMerge | UpdateStrategy.StrategyUpsertOnly =>
      data.foldl (fun acc kv => storeInsert acc kv.1 kv.2) m
  | UpdateStrategy.StrategyIncremental =>
      data.foldl (fun acc kv => storeInsert acc kv.1 kv.2) m

/-- Lookup in the fetched dataset, last binding winning; on lists that embed a
Go map the keys are distinct, so this is simply the map lookup. -/
def findLast [DecidableEq K] : List (K × V) → K → Option V
  | [], _ => none
  | kv :: rest, k =>
      match findLast rest k with
      | some v => some v
      | none => if k = kv.1 then some kv.2 else none

/-- Updater.buildFetchChain (json.go lines 267-278): starting from
source.Fetch, wrap the middlewares from the last index down to the first, so
that the first registered middleware ends up outermost. -/
def buildFetchChain {F : Type} (middlewares : List (F → F)) (sourceFetch : F) : F :=
  middlewares.foldr (fun mw acc => mw acc) sourceFetch

/-- Updater.WithMiddleware (json.go lines 156-159): append to the middleware
list, keeping registration order. -/
def withMiddleware {F : Type} (cur extra : List (F → F)) : List (F → F) :=
  cur ++ extra

/-- Lifecycle model of Updater (json.go lines 118-138): fetchResults i is the
outcome of the i-th invocation of the middleware-wrapped source.Fetch,
applyResult the outcome of sink.Apply on fetched data; loopStarted records
whether go u.run() was executed. -/
structure Updater (E D : Type) where
  fetchResults : Nat → Except E D
  applyResult : D → Option E
  fetchCount : Nat
  lastError : Option E
  lastOk : Bool
  loopStarted : Bool

/-- NewUpdater (json.go lines 141-152): constructed idle. -/
def newUpdater (fr : Nat → Except E D) (ar : D → Option E) : Updater E D :=
  { fetchResults := fr
    applyResult := ar
    fetchCount := 0
    lastError := none
    lastOk := false
    loopStarted := false }

/-- updateOnce (json.go lines 234-264): one fetch through the middleware
chain, then one sink apply; on either failure record the last error and
return it, on success record the success and clear the last error. -/
def updateOnce (u : Updater E D) : Option E × Updater E D :=
  match u.fetchResults u.fetchCount with
  | Except.error e =>
      (some e, { u with fetchCount := u.fetchCount + 1, lastError := some e })
  | Except.ok d =>
      match u.applyResult d with
      | some e =>
          (some e, { u with fetchCount := u.fetchCount + 1, lastError := some e })
      | none =>
          (none, { u with fetchCount := u.fetchCount + 1, lastError := none, lastOk := true })

/-- Start (json.go lines 176-181): launch the loop; no synchronous update. -/
def start (u : Updater E D) : Updater E D :=
  { u with loopStarted := true }

/-- StartSync (json.go lines 187-201): one synchronous updateOnce; on failure
cancel and return the error without ever launching the loop, on success
launch the loop exactly like Start. -/
def startSync (u : Updater E D) : Option E × Updater E D :=
  match (updateOnce u).1 with
  | some e => (some e, (updateOnce u).2)
  | none => (none, start (updateOnce u).2)

/-- The run loop (json.go lines 212-226) observed for a number of ticks: each
tick performs one update; when the loop goroutine was never launched, no tick
ever runs anything. -/
def runTicks (u : Updater E D) : Nat → Updater E D
  | 0 => u
  | Nat.succ t => if u.loopStarted then runTicks (updateOnce u).2 t else u

/-- CacheValue (part_004 lines 10-17): one slot holding a value, an absolute
expiry instant, an optional generator (modelled by the outcome it would
produce), a fixed timeout and the presence flag. Instants are Nat. -/
structure CacheValue (T : Type) where
  value : T
  expiresAt : Nat
  defaultFn : Option (Except String T)
  timeout : Nat
  hasValue : Bool

/-- NewCacheValue (part_004 lines 22-27). -/
def newCacheValue (T : Type) [Inhabited T] (timeout : Nat)
    (defaultFn : Option (Except String T)) : CacheValue T :=
  { value := default
    expiresAt := 0
    defaultFn := defaultFn
    timeout := timeout
    hasValue := false }

/-- isExpired (part_004 lines 30-35): never expired without a timeout or a
value; otherwise expired once now is past expiresAt. -/
def CacheValue.isExpired (cv : CacheValue T) (now : Nat) : Bool :=
  if cv.timeout == 0 || !cv.hasValue then false else decide (cv.expiresAt < now)

/-- GetNoDefault (part_004 lines 39-49). -/
def CacheValue.getNoDefault [Inhabited T] (cv : CacheValue T) (now : Nat) : T × Bool :=
  if !cv.hasValue || cv.isExpired now then (default, false) else (cv.value, true)

/-- Set (part_004 lines 98-111): report whether a live value was overwritten;
store the value and refresh expiresAt from now whenever a timeout is set. -/
def CacheValue.set (cv : CacheValue T) (now : Nat) (v : T) : Bool × CacheValue T :=
  let wasActual := cv.hasValue && !cv.isExpired now
  (wasActual,
    { cv with
      value := v
      hasValue := true
      expiresAt := if cv.timeout > 0 then now + cv.timeout else cv.expiresAt })

/-- GetDefault (part_004 lines 55-78): cached value first; otherwise consult
the generator, storing its value on success and reporting its error, leaving
the slot untouched, on failure. -/
def CacheValue.getDefault [Inhabited T] (cv : CacheValue T) (now : Nat) :
    (T × Bool × Option String) × CacheValue T :=
  if (cv.getNoDefault now).2 then (((cv.getNoDefault now).1, true, none), cv)
  else
    match cv.defaultFn with
    | none => ((default, false, none), cv)
    | some (Except.error e) => ((default, false, some e), cv)
    | some (Except.ok v) => ((v, false, none), (cv.set now v).2)

/-- Get (part_004 lines 83-94): with a generator it calls GetDefault and, past
the error check, returns ok OR (err == nil), which is then always true;
without a generator it is GetNoDefault. -/
def CacheValue.get [Inhabited T] (cv : CacheValue T) (now : Nat) :
    (T × Bool × Option String) × CacheValue T :=
  match cv.defaultFn with
  | some _ =>
      match (cv.getDefault now).1.2.2 with
      | some e => (((cv.getDefault now).1.1, false, some e), (cv.getDefault now).2)
      | none =>
          (((cv.getDefault now).1.1, (cv.getDefault now).1.2.1 || true, none),
            (cv.getDefault now).2)
  | none =>
      (((cv.getNoDefault now).1, (cv.getNoDefault now).2, none), cv)

/-- Update (part_004 lines 142-155): force re-generation; overwrite on
success, leave the slot untouched and return the error on failure. -/
def CacheValue.update (cv : CacheValue T) (now : Nat) : Option String × CacheValue T :=
  match cv.defaultFn with
  | none => (some "defaultFn is not set", cv)
  | some (Except.error e) => (some e, cv)
  | some (Except.ok v) => (none, (cv.set now v).2)

/-- Cache (part_004 lines 158-164): storage of per-key CacheValue entries, an
optional key extractor, an optional keyed generator, and the cache timeout. -/
structure Cache (K T : Type) where
  storage : K → Option (CacheValue T)
  keyFn : Option (T → K)
  defaultFn : Option (K → Except String T)
  timeout : Nat

/-- getCacheValue (part_004 lines 191-213): return the entry for the key,
creating an empty one (cache timeout, no per-entry generator) on first use. -/
def Cache.getCacheValue [Inhabited T] [DecidableEq K] (c : Cache K T) (key : K) :
    CacheValue T × Cache K T :=
  match c.storage key with
  | some cv => (cv, c)
  | none =>
      let cv := newCacheValue T c.timeout none
      (cv, { c with storage := fun k => if k = key then some cv else c.storage k })

/-- Cache.GetNoDefault (part_004 lines 217-228). -/
def Cache.getNoDefault [Inhabited T] (c : Cache K T) (key : K) (now : Nat) : T × Bool :=
  match c.storage key with
  | none => (default, false)
  | some cv => cv.getNoDefault now

/-- In Go the entry held in storage is a pointer, so a CacheValue level write
on the entry returned by getCacheValue is seen through storage; the
functional model makes that write-through explicit. -/
def Cache.storeEntry [DecidableEq K] (c : Cache K T) (key : K) (cv : CacheValue T) :
    Cache K T :=
  { c with storage := fun k => if k = key then some cv else c.storage k }

/-- Cache.Set (part_004 lines 279-282): the entry returned by getCacheValue is
shared with storage, so the CacheValue level set writes through to storage. -/
def Cache.set [Inhabited T] [DecidableEq K] (c : Cache K T) (key : K) (now : Nat)
    (v : T) : Bool × Cache K T :=
  (((c.getCacheValue key).1.set now v).1,
    ((c.getCacheValue key).2).storeEntry key (((c.getCacheValue key).1.set now v).2))

/-- Cache.GetDefault (part_004 lines 234-259): ensure the entry, try it first,
then consult the cache-wide keyed generator; its value is stored through the
shared entry on success, and on failure the error is returned with nothing
written. -/
def Cache.getDefault [Inhabited T] [DecidableEq K] (c : Cache K T) (key : K)
    (now : Nat) : (T × Bool × Option String) × Cache K T :=
  match c.defaultFn with
  | none =>
      (((((c.getCacheValue key).1).getNoDefault now).1,
        (((c.getCacheValue key).1).getNoDefault now).2, none),
        (c.getCacheValue key).2)
  | some fn =>
      if (((c.getCacheValue key).1).getNoDefault now).2 then
        (((((c.getCacheValue key).1).getNoDefault now).1, true, none),
          (c.getCacheValue key).2)
      else
        match fn key with
        | Except.error e => ((default, false, some e), (c.getCacheValue key).2)
        | Except.ok v =>
            ((v, false, none),
              ((c.getCacheValue key).2).storeEntry key
                (((c.getCacheValue key).1.set now v).2))

/-- Cache.Get (part_004 lines 264-275): same shape as the CacheValue level
helper, on top of the keyed generator. -/
def Cache.get [Inhabited T] [DecidableEq K] (c : Cache K T) (key : K) (now : Nat) :
    (T × Bool × Option String) × Cache K T :=
  match c.defaultFn with
  | some _ =>
      match (c.getDefault key now).1.2.2 with
      | some e =>
          (((c.getDefault key now).1.1, false, some e), (c.getDefault key now).2)
      | none =>
          (((c.getDefault key now).1.1, (c.getDefault key now).1.2.1 || true, none),
            (c.getDefault key now).2)
  | none =>
      (((c.getNoDefault key now).1, (c.getNoDefault key now).2, none), c)

/-- Cache.Update (part_004 lines 417-430): force re-generation for the key;
store through Set on success, return the error and touch nothing on failure. -/
def Cache.update [Inhabited T] [DecidableEq K] (c : Cache K T) (key : K)
    (now : Nat) : Option String × Cache K T :=
  match c.defaultFn with
  | none => (some "defaultFn is not set", c)
  | some fn =>
      match fn key with
      | Except.error e => (some e, c)
      | Except.ok v => (none, (c.set key now v).2)

/-! Helper lemmas. -/

/-- Pointwise value of the upsert loop of StoreSink.Apply: the last binding of
the key in the fetched data when there is one, the prior map value otherwise. -/
theorem foldl_storeInsert_eq [DecidableEq K] (data : List (K × V)) (m : K → Option V)
    (k : K) :
    (data.foldl (fun acc kv => storeInsert acc kv.1 kv.2) m) k
      = match findLast data k with
        | some v => some v
        | none => m k := by
  induction data generalizing m with
  | nil => rfl
  | cons kv rest ih =>
      rw [List.foldl_cons, ih]
      show _ = (match findLast (kv :: rest) k with
        | some v => some v
        | none => m k)
      rw [findLast]
      cases h : findLast rest k with
      | some v => rfl
      | none =>
          by_cases hk : k = kv.1
          · simp [storeInsert, hk]
          · simp [storeInsert, hk]

/-- Deleting a key from the registry makes its own lookup fail. -/
theorem find?_filter_self {α : Type} (l : List (Nat × α)) (id : Nat) :
    (l.filter (fun p => p.1 != id)).find? (fun p => p.1 == id) = none := by
  rw [List.find?_eq_none]
  intro x hx
  have hmem := List.of_mem_filter hx
  simp only [bne_iff_ne, ne_eq] at hmem
  simp only [beq_iff_eq]
  exact hmem

/-- Deleting a key from the registry leaves every other lookup unchanged. -/
theorem find?_filter_other {α : Type} (l : List (Nat × α)) (id j : Nat) (hj : j ≠ id) :
    (l.filter (fun p => p.1 != id)).find? (fun p => p.1 == j)
      = l.find? (fun p => p.1 == j) := by
  induction l with
  | nil => simp
  | cons p l ih =>
      by_cases hpid : p.1 = id
      · rw [List.filter_cons_of_neg (by simp [hpid]), ih,
          List.find?_cons_of_neg _ (by simp [hpid]; exact fun hh => hj hh.symm)]
      · rw [List.filter_cons_of_pos (by simp [hpid])]
        by_cases hpj : p.1 = j
        · rw [List.find?_cons_of_pos _ (by simp [hpj]),
            List.find?_cons_of_pos _ (by simp [hpj])]
        · rw [List.find?_cons_of_neg _ (by simp [hpj]),
            List.find?_cons_of_neg _ (by simp [hpj]), ih]

/-- Registry lookup through the completion map, which rewrites every channel
to the same delivered channel state. -/
theorem find?_map_const {α β : Type} (l : List (Nat × α)) (c : β) (j : Nat) :
    ((l.map (fun p => (p.1, c))).find? (fun p => p.1 == j))
      = (l.find? (fun p => p.1 == j)).map (fun p => (p.1, c)) := by
  induction l with
  | nil => rfl
  | cons p l ih =>
      by_cases hpj : p.1 = j
      · rw [List.map_cons, List.find?_cons_of_pos _ (by simp [hpj]),
          List.find?_cons_of_pos _ (by simp [hpj])]
        rfl
      · rw [List.map_cons, List.find?_cons_of_neg _ (by simp [hpj]),
          List.find?_cons_of_neg _ (by simp [hpj]), ih]

/-- A canceled waiter is gone from the registry; every other waiter is kept. -/
theorem lookupSub_waitCancel (T : Type) [Inhabited T] (s : FutureState T) (id j : Nat) :
    lookupSub (waitCancel T s id).2 j = if j = id then none else lookupSub s j := by
  by_cases hj : j = id
  · rw [if_pos hj, hj]
    show ((s.subs.filter (fun p => p.1 != id)).find? (fun p => p.1 == id)).map _ = none
    rw [find?_filter_self]
    rfl
  · rw [if_neg hj]
    show ((s.subs.filter (fun p => p.1 != id)).find? (fun p => p.1 == j)).map _ = _
    rw [find?_filter_other _ _ _ hj]
    rfl

/-- After the completion transition, the registry holds under each previously
registered id its channel moved to the delivered state. -/
theorem lookupSub_completeStep [Inhabited T] (s : FutureState T)
    (inp : Option (Result T)) (j : Nat) :
    lookupSub (completeStep s inp) j
      = (lookupSub s j).map (fun _ =>
          if (completeStep s inp).hasResult then SubChan.filled (completeStep s inp).result
          else SubChan.closedEmpty) := by
  cases inp with
  | none =>
      unfold lookupSub
      show ((s.subs.map (fun p => (p.1,
          if s.hasResult then SubChan.filled s.result
          else SubChan.closedEmpty))).find? (fun p => p.1 == j)).map (fun p => p.2) = _
      rw [find?_map_const]
      cases s.subs.find? (fun p => p.1 == j) <;> rfl
  | some r =>
      unfold lookupSub
      show ((s.subs.map (fun p => (p.1, SubChan.filled r))).find?
          (fun p => p.1 == j)).map (fun p => p.2) = _
      rw [find?_map_const]
      cases s.subs.find? (fun p => p.1 == j) <;> rfl

/-- updateOnce never launches the loop goroutine. -/
theorem updateOnce_loopStarted (u : Updater E D) :
    (updateOnce u).2.loopStarted = u.loopStarted := by
  unfold updateOnce
  split
  · rfl
  · split <;> rfl

/-- updateOnce performs exactly one fetch. -/
theorem updateOnce_fetchCount (u : Updater E D) :
    (updateOnce u).2.fetchCount = u.fetchCount + 1 := by
  unfold updateOnce
  split
  · rfl
  · split <;> rfl

/-- A failing updateOnce records its error as the last error. -/
theorem updateOnce_lastError (u : Updater E D) (e : E)
    (h : (updateOnce u).1 = some e) : (updateOnce u).2.lastError = some e := by
  unfold updateOnce at h ⊢
  revert h
  split
  · intro h
    simpa using h
  · split
    · intro h
      simpa using h
    · intro h
      simp at h

/-- A loop that was never launched does nothing on any number of ticks. -/
theorem runTicks_not_started (u : Updater E D) (h : u.loopStarted = false) (t : Nat) :
    runTicks u t = u := by
  cases t with
  | zero => rfl
  | succ t => simp [runTicks, h]

/-- The entry ensured by getCacheValue reads exactly like the cache-level
GetNoDefault: a fresh empty entry misses, an existing entry answers itself. -/
theorem getCacheValue_getNoDefault [Inhabited T] [DecidableEq K] (c : Cache K T)
    (key : K) (now : Nat) :
    ((c.getCacheValue key).1).getNoDefault now = c.getNoDefault key now := by
  unfold Cache.getCacheValue Cache.getNoDefault
  cases h : c.storage key with
  | some cv => rfl
  | none => rfl

/-- getCacheValue preserves every entry already present in storage. -/
theorem getCacheValue_storage [Inhabited T] [DecidableEq K] (c : Cache K T)
    (key k : K) (cv0 : CacheValue T) (h : c.storage k = some cv0) :
    (c.getCacheValue key).2.storage k = some cv0 := by
  unfold Cache.getCacheValue
  cases hk : c.storage key with
  | some cv => exact h
  | none =>
      show (if k = key then some (newCacheValue T c.timeout none)
            else c.storage k) = some cv0
      by_cases hkk : k = key
      · rw [hkk] at h
        rw [hk] at h
        exact Option.noConfusion h
      · rw [if_neg hkk]
        exact h

/-! Claim theorems. -/

/-- C1, counterexample. The claim says a request for key K test-and-inserts a
BroadcastFuture only if none is present and launches the producer only on the
insertion path. In the code, StoreResultWaiter is the only producing request
path, and starting from an empty table a first request for key 0 makes the key
present, yet a second request for the same key launches the producer again
(two launches in total) and overwrites the table entry with the new waiter. -/
theorem dedup_present_key_still_launches :
    ((StoreResultWaiter { table := fun _ => (none : Option Nat), launches := 0, nextID := 0 } 0).table 0).isSome = true
    ∧ (StoreResultWaiter (StoreResultWaiter { table := fun _ => (none : Option Nat), launches := 0, nextID := 0 } 0) 0).launches = 2
    ∧ (StoreResultWaiter (StoreResultWaiter { table := fun _ => (none : Option Nat), launches := 0, nextID := 0 } 0) 0).table 0 = some 1 := by
  exact ⟨rfl, rfl, rfl⟩

/-- C1, amended. The code has no atomic test-and-insert: StoreResultWaiter
always launches one new producer computation and registers its waiter under
the key, overwriting any present entry, while GetResultWaiter joins whatever
waiter is present and never launches anything; consequently two requests for
the same key that both go through the producing path launch the computation
twice rather than at most once. -/
theorem dedup_request_operations (s : DedupState Nat) (key : Nat) :
    (StoreResultWaiter s key).launches = s.launches + 1
    ∧ (StoreResultWaiter s key).table key = some s.nextID
    ∧ (GetResultWaiter s key).2 = s
    ∧ (GetResultWaiter s key).1 = s.table key
    ∧ (StoreResultWaiter (StoreResultWaiter s key) key).launches = s.launches + 2 := by
  refine ⟨rfl, ?_, rfl, rfl, rfl⟩
  simp [StoreResultWaiter]

/-- C5. Under the Replace strategy, applying a fetched dataset makes the sink
map exactly the dataset lookup at every key, whatever the prior contents:
fetched keys map to their fetched values and nothing else remains. -/
theorem replace_makes_sink_equal_dataset [DecidableEq K] (m : K → Option V)
    (data : List (K × V)) (k : K) :
    applyStoreSink UpdateStrategy.StrategyReplace m data k = findLast data k := by
  show (data.foldl (fun acc kv => storeInsert acc kv.1 kv.2) (fun _ => none)) k = _
  rw [foldl_storeInsert_eq]
  cases findLast data k <;> rfl

/-- C6. Merge, UpsertOnly and Incremental coincide on every input, and under
them every fetched key carries its fetched value, every key absent from the
dataset keeps its prior value, and no key present before is ever deleted. -/
theorem merge_strategies_upsert_and_preserve [DecidableEq K] (m : K → Option V)
    (data : List (K × V)) (k : K) :
    applyStoreSink UpdateStrategy.StrategyMerge m data k
        = applyStoreSink UpdateStrategy.StrategyUpsertOnly m data k
    ∧ applyStoreSink UpdateStrategy.StrategyMerge m data k
        = applyStoreSink UpdateStrategy.StrategyIncremental m data k
    ∧ applyStoreSink UpdateStrategy.StrategyMerge m data k
        = (match findLast data k with
           | some v => some v
           | none => m k)
    ∧ (applyStoreSink UpdateStrategy.StrategyMerge m data k = none → m k = none) := by
  have hma : applyStoreSink UpdateStrategy.StrategyMerge m data k
      = (match findLast data k with
         | some v => some v
         | none => m k) := by
    show (data.foldl (fun acc kv => storeInsert acc kv.1 kv.2) m) k = _
    exact foldl_storeInsert_eq data m k
  refine ⟨rfl, rfl, hma, ?_⟩
  intro hnone
  rw [hma] at hnone
  cases h : findLast data k with
  | some v => rw [h] at hnone; exact absurd hnone (by simp)
  | none => rw [h] at hnone; exact hnone

/-- C6, witness: applying the Merge strategy at a concrete empty sink and
empty dataset, the no-deletion implication of the claim theorem applies. -/
theorem merge_strategies_upsert_and_preserve_witness :
    (fun _ : Nat => (none : Option Nat)) 0 = none := by
  exact (merge_strategies_upsert_and_preserve
    (fun _ : Nat => (none : Option Nat)) ([] : List (Nat × Nat)) 0).2.2.2 rfl

/-- C7. The effective fetch of the refresher is the first-registered
middleware applied outermost: prepending a middleware wraps the whole rest of
the chain, chains compose by concatenation of registration lists, and three
middlewares registered in order through WithMiddleware produce exactly
m1 (m2 (m3 (source fetch))). -/
theorem first_middleware_outermost {F : Type} (m m1 m2 m3 : F → F)
    (mws mws1 mws2 : List (F → F)) (base : F) :
    buildFetchChain (m :: mws) base = m (buildFetchChain mws base)
    ∧ buildFetchChain (withMiddleware mws1 mws2) base
        = buildFetchChain mws1 (buildFetchChain mws2 base)
    ∧ buildFetchChain (withMiddleware (withMiddleware (withMiddleware [] [m1]) [m2]) [m3]) base
        = m1 (m2 (m3 base)) := by
  refine ⟨rfl, ?_, rfl⟩
  show (mws1 ++ mws2).foldr (fun mw acc => mw acc) base = _
  rw [List.foldr_append]
  rfl

/-- C2. When the producer of a BroadcastFuture succeeds with value X, every
waiter registered while the future was pending finds its channel delivered
with (X, true), and every Wait call arriving after the completion transition
returns (X, true) immediately from the cached outcome - so all waiters,
whether registered before or after completion, observe (X, true). -/
theorem broadcast_all_waiters_observe_success [Inhabited T] (s : FutureState T) (X : T)
    (hdone : s.done = false)
    (hpend : ∀ p ∈ s.subs, p.2 = SubChan.pending) :
    (∀ p ∈ (completeStep s (some { result := X, error := none })).subs,
        chanRecv p.2 = some ({ result := X, error := none }, true))
    ∧ (waitEnter (completeStep s (some { result := X, error := none }))).1
        = WaitEntry.immediate { result := X, error := none } true := by
  constructor
  · intro p hp
    have hp2 : p ∈ s.subs.map
        (fun q => (q.1, SubChan.filled { result := X, error := none })) := hp
    obtain ⟨q, hq, rfl⟩ := List.mem_map.mp hp2
    rfl
  · rfl

/-- C2, witness: one waiter registers on a fresh future, the producer then
succeeds with 42, and a late Wait call returns (42, true) immediately. -/
theorem broadcast_all_waiters_observe_success_witness :
    (waitEnter (completeStep ((waitEnter (initFuture Nat)).2)
        (some { result := 42, error := none }))).1
      = WaitEntry.immediate { result := 42, error := none } true := by
  have h := broadcast_all_waiters_observe_success ((waitEnter (initFuture Nat)).2) 42
    (by decide) (by decide)
  exact h.2

/-- C3, counterexample. The claim says that once a BroadcastFuture is
Completed its subscriber registry is empty. Concretely: one waiter registers
on a fresh future, the producer completes with value 7; the state is
Completed, yet the registry still holds that subscriber entry (length 1). -/
theorem completed_registry_not_empty :
    (completeStep ((waitEnter (initFuture Nat)).2)
        (some { result := 7, error := none })).done = true
    ∧ (completeStep ((waitEnter (initFuture Nat)).2)
        (some { result := 7, error := none })).subs.length = 1 := by
  exact ⟨rfl, rfl⟩

/-- C3, amended. Once a BroadcastFuture is Completed the stored outcome is
never mutated again - a later Wait returns immediately without touching the
state, and a cancellation removal changes neither the completion flags nor
the outcome - and every subscriber registered while Pending was notified
during the completion transition (its channel is no longer pending); the
registry however is not emptied: the notified entries remain in the map,
one per registered subscriber. -/
theorem completed_outcome_immutable_registry_kept [Inhabited T] (s : FutureState T)
    (inp : Option (Result T)) (id : Nat) :
    (waitEnter (completeStep s inp)).2 = completeStep s inp
    ∧ (waitEnter (completeStep s inp)).1
        = WaitEntry.immediate (completeStep s inp).result (completeStep s inp).hasResult
    ∧ (waitCancel T (completeStep s inp) id).2.done = true
    ∧ (waitCancel T (completeStep s inp) id).2.hasResult = (completeStep s inp).hasResult
    ∧ (waitCancel T (completeStep s inp) id).2.result = (completeStep s inp).result
    ∧ (∀ p ∈ (completeStep s inp).subs, p.2 ≠ SubChan.pending)
    ∧ (completeStep s inp).subs.length = s.subs.length := by
  refine ⟨?_, ?_, ?_, ?_, ?_, ?_, ?_⟩
  · cases inp <;> rfl
  · cases inp <;> rfl
  · cases inp <;> rfl
  · cases inp <;> rfl
  · cases inp <;> rfl
  · intro p hp
    cases inp with
    | some r =>
        have hp2 : p ∈ s.subs.map (fun q => (q.1, SubChan.filled r)) := hp
        obtain ⟨q, hq, rfl⟩ := List.mem_map.mp hp2
        simp
    | none =>
        have hp2 : p ∈ s.subs.map (fun q =>
            (q.1, if s.hasResult then SubChan.filled s.result
                  else SubChan.closedEmpty)) := hp
        obtain ⟨q, hq, rfl⟩ := List.mem_map.mp hp2
        by_cases hres : s.hasResult <;> simp [hres]
  · cases inp <;> simp [completeStep]

/-- C3 amended, witness: at a concrete completed future with one subscriber,
the registered channel is notified (not pending) and the registry length is
preserved, not zeroed. -/
theorem completed_outcome_immutable_registry_kept_witness :
    ((0, SubChan.filled { result := 3, error := none }) : Nat × SubChan Nat).2
        ≠ SubChan.pending
    ∧ (completeStep ((waitEnter (initFuture Nat)).2)
        (some { result := 3, error := none })).subs.length
        = ((waitEnter (initFuture Nat)).2).subs.length := by
  have h := completed_outcome_immutable_registry_kept
    ((waitEnter (initFuture Nat)).2) (some { result := 3, error := none }) 0
  exact ⟨h.2.2.2.2.2.1 (0, SubChan.filled { result := 3, error := none }) (by decide),
    h.2.2.2.2.2.2⟩

/-- C4. A Wait call canceled before completion returns the zero Result with
false (no error inside), removes exactly its own subscription - the
completion flags, the outcome and every other subscription are untouched -
and a completion happening afterwards stores the same outcome and delivers
the same channel state to every other waiter as it would have without the
cancellation. -/
theorem wait_cancel_is_local [Inhabited T] (s : FutureState T) (id j : Nat)
    (inp : Option (Result T)) :
    (waitCancel T s id).1 = (zeroResult T, false)
    ∧ (waitCancel T s id).2.done = s.done
    ∧ (waitCancel T s id).2.hasResult = s.hasResult
    ∧ (waitCancel T s id).2.result = s.result
    ∧ lookupSub (waitCancel T s id).2 j = (if j = id then none else lookupSub s j)
    ∧ (completeStep (waitCancel T s id).2 inp).result = (completeStep s inp).result
    ∧ (completeStep (waitCancel T s id).2 inp).hasResult = (completeStep s inp).hasResult
    ∧ lookupSub (completeStep (waitCancel T s id).2 inp) j
        = (if j = id then none else lookupSub (completeStep s inp) j) := by
  refine ⟨rfl, rfl, rfl, rfl, lookupSub_waitCancel T s id j, ?_, ?_, ?_⟩
  · cases inp <;> rfl
  · cases inp <;> rfl
  · rw [lookupSub_completeStep, lookupSub_completeStep, lookupSub_waitCancel]
    by_cases hj : j = id
    · simp [hj]
    · rw [if_neg hj, if_neg hj]
      cases inp <;> rfl

/-- C8. If the synchronous first fetch-and-apply of StartSync fails, StartSync
returns exactly that error, the loop goroutine is never launched, the error is
recorded, exactly one fetch was performed, and any number of later ticks
changes nothing (no further fetch ever occurs); if it succeeds, StartSync
returns no error and the resulting state is precisely Start applied to the
state after the one synchronous update. -/
theorem startSync_failure_never_starts_loop {E D : Type} (fr : Nat → Except E D)
    (ar : D → Option E) :
    (∀ e, (startSync (newUpdater fr ar)).1 = some e →
        (startSync (newUpdater fr ar)).2.loopStarted = false
        ∧ (∀ t, runTicks (startSync (newUpdater fr ar)).2 t
            = (startSync (newUpdater fr ar)).2)
        ∧ (updateOnce (newUpdater fr ar)).1 = some e
        ∧ (startSync (newUpdater fr ar)).2.lastError = some e
        ∧ (startSync (newUpdater fr ar)).2.fetchCount = 1)
    ∧ ((startSync (newUpdater fr ar)).1 = none →
        (startSync (newUpdater fr ar)).2 = start (updateOnce (newUpdater fr ar)).2) := by
  have hL : (updateOnce (newUpdater fr ar)).2.loopStarted = false :=
    (updateOnce_loopStarted (newUpdater fr ar)).trans rfl
  have hC : (updateOnce (newUpdater fr ar)).2.fetchCount = 1 :=
    (updateOnce_fetchCount (newUpdater fr ar)).trans rfl
  unfold startSync
  cases hres : (updateOnce (newUpdater fr ar)).1 with
  | some e0 =>
      constructor
      · intro e he
        have he0 : e0 = e := by simpa using he
        subst he0
        refine ⟨hL, ?_, rfl, ?_, hC⟩
        · intro t
          exact runTicks_not_started _ hL t
        · show (updateOnce (newUpdater fr ar)).2.lastError = some e0
          exact updateOnce_lastError _ e0 hres
      · intro hn
        simp at hn
  | none =>
      constructor
      · intro e he
        simp at he
      · intro _
        rfl

/-- C8, witness: with a source whose first fetch fails, StartSync leaves the
loop unlaunched and three further ticks change nothing; with a source whose
first fetch succeeds, StartSync ends exactly in the Start state after one
synchronous update. -/
theorem startSync_failure_never_starts_loop_witness :
    (startSync (newUpdater (fun _ : Nat => (Except.error "boom" : Except String Nat))
        (fun _ => none))).2.loopStarted = false
    ∧ runTicks (startSync (newUpdater
        (fun _ : Nat => (Except.error "boom" : Except String Nat))
        (fun _ => none))).2 3
      = (startSync (newUpdater (fun _ : Nat => (Except.error "boom" : Except String Nat))
        (fun _ => none))).2
    ∧ (startSync (newUpdater (fun _ : Nat => (Except.ok 5 : Except String Nat))
        (fun _ => none))).2
      = start (updateOnce (newUpdater (fun _ : Nat => (Except.ok 5 : Except String Nat))
        (fun _ => none))).2 := by
  have h1 := (startSync_failure_never_starts_loop
    (fun _ : Nat => (Except.error "boom" : Except String Nat)) (fun _ => none)).1
    "boom" rfl
  have h2 := (startSync_failure_never_starts_loop
    (fun _ : Nat => (Except.ok 5 : Except String Nat)) (fun _ => none)).2 rfl
  exact ⟨h1.1, h1.2.1 3, h2⟩

/-- C9. A failing generator reports its error and leaves the cached state
completely unchanged: CacheValue.getDefault returns the same slot and, on a
miss, the error; CacheValue.update returns the error with the slot unchanged;
Cache.getDefault preserves every entry present in storage and, on a miss at
the requested key, returns the error; Cache.update returns the error with the
whole cache unchanged. -/
theorem failing_generator_preserves_cache [Inhabited T] [DecidableEq K]
    (cv : CacheValue T) (c : Cache K T) (key : K) (now : Nat) (e : String)
    (fn : K → Except String T)
    (hcv : cv.defaultFn = some (Except.error e))
    (hc : c.defaultFn = some fn) (hfn : fn key = Except.error e) :
    (cv.getDefault now).2 = cv
    ∧ ((cv.getNoDefault now).2 = false →
        (cv.getDefault now).1 = (default, false, some e))
    ∧ cv.update now = (some e, cv)
    ∧ (∀ k cv0, c.storage k = some cv0 →
        (c.getDefault key now).2.storage k = some cv0)
    ∧ ((c.getNoDefault key now).2 = false →
        (c.getDefault key now).1 = (default, false, some e))
    ∧ c.update key now = (some e, c) := by
  refine ⟨?_, ?_, ?_, ?_, ?_, ?_⟩
  · unfold CacheValue.getDefault
    cases hg : (cv.getNoDefault now).2
    · rw [hcv]
      rfl
    · rfl
  · intro hmiss
    unfold CacheValue.getDefault
    rw [hmiss, hcv]
    rfl
  · unfold CacheValue.update
    rw [hcv]
  · intro k cv0 h
    have hpres := getCacheValue_storage c key k cv0 h
    unfold Cache.getDefault
    rw [hc]
    cases hg : (((c.getCacheValue key).1).getNoDefault now).2
    · show ((match fn key with
        | Except.error e => ((default, false, some e), (c.getCacheValue key).2)
        | Except.ok v =>
            ((v, false, none),
              ((c.getCacheValue key).2).storeEntry key
                (((c.getCacheValue key).1.set now v).2)) :
        (T × Bool × Option String) × Cache K T)).2.storage k = some cv0
      rw [hfn]
      exact hpres
    · exact hpres
  · intro hmiss
    have hgb := getCacheValue_getNoDefault c key now
    have hcond : (((c.getCacheValue key).1).getNoDefault now).2 = false := by
      rw [hgb]
      exact hmiss
    unfold Cache.getDefault
    rw [hc, hcond]
    show ((match fn key with
      | Except.error e => ((default, false, some e), (c.getCacheValue key).2)
      | Except.ok v =>
          ((v, false, none),
            ((c.getCacheValue key).2).storeEntry key
              (((c.getCacheValue key).1.set now v).2)) :
      (T × Bool × Option String) × Cache K T)).1 = (default, false, some e)
    rw [hfn]
  · unfold Cache.update
    rw [hc]
    show (match fn key with
      | Except.error e => (some e, c)
      | Except.ok v => (none, (c.set key now v).2)) = (some e, c)
    rw [hfn]

/-- C9, witness: at a concrete empty single slot and a concrete empty cache
whose generators fail with the error boom, the failing generator leaves the
state unchanged and the error is reported on every path of the claim. -/
theorem failing_generator_preserves_cache_witness :
    CacheValue.update
        { value := (0 : Nat), expiresAt := 0,
          defaultFn := some (Except.error "boom"), timeout := 0, hasValue := false } 3
      = (some "boom",
        { value := (0 : Nat), expiresAt := 0,
          defaultFn := some (Except.error "boom"), timeout := 0, hasValue := false })
    ∧ (CacheValue.getDefault
        { value := (0 : Nat), expiresAt := 0,
          defaultFn := some (Except.error "boom"), timeout := 0, hasValue := false } 3).1
      = (default, false, some "boom")
    ∧ Cache.update
        { storage := fun _ : Nat => (none : Option (CacheValue Nat)), keyFn := none,
          defaultFn := some (fun _ => Except.error "boom"), timeout := 0 } 1 3
      = (some "boom",
        { storage := fun _ : Nat => (none : Option (CacheValue Nat)), keyFn := none,
          defaultFn := some (fun _ => Except.error "boom"), timeout := 0 }) := by
  have h := failing_generator_preserves_cache
    { value := (0 : Nat), expiresAt := 0,
      defaultFn := some (Except.error "boom"), timeout := 0, hasValue := false }
    { storage := fun _ : Nat => (none : Option (CacheValue Nat)), keyFn := none,
      defaultFn := some (fun _ => Except.error "boom"), timeout := 0 }
    1 3 "boom" (fun _ => Except.error "boom") rfl rfl rfl
  exact ⟨h.2.2.1, h.2.1 (by decide), h.2.2.2.2.2⟩

/-- C10. The Get helpers report whether a value is available rather than
whether it was already cached: on a miss with a configured generator that
succeeds with v, Get returns (v, true) even though GetDefault reports the
value as freshly generated (false), and Get reports false exactly when no
live value exists and either no generator is configured or the generator
fails - for CacheValue.get and Cache.get alike. -/
theorem get_reports_value_availability [Inhabited T] [DecidableEq K]
    (cv : CacheValue T) (c : Cache K T) (key : K) (now : Nat) (v : T)
    (fn : K → Except String T) :
    (cv.defaultFn = some (Except.ok v) → (cv.getNoDefault now).2 = false →
        (cv.get now).1 = (v, true, none) ∧ (cv.getDefault now).1.2.1 = false)
    ∧ ((cv.get now).1.2.1 = false ↔
        ((cv.getNoDefault now).2 = false
          ∧ (cv.defaultFn = none ∨ ∃ e, cv.defaultFn = some (Except.error e))))
    ∧ (c.defaultFn = some fn → fn key = Except.ok v →
        (c.getNoDefault key now).2 = false → (c.get key now).1 = (v, true, none))
    ∧ ((c.get key now).1.2.1 = false ↔
        ((c.getNoDefault key now).2 = false
          ∧ (c.defaultFn = none
              ∨ ∃ g e, c.defaultFn = some g ∧ g key = Except.error e))) := by
  have hcvDefaultBranch : ∀ (e : String),
      cv.defaultFn = some (Except.error e) → (cv.getNoDefault now).2 = false →
      (cv.getDefault now).1 = (default, false, some e) := by
    intro e hdf hg
    unfold CacheValue.getDefault
    rw [hg, hdf]
    rfl
  have hcvOkBranch : ∀ (v0 : T),
      cv.defaultFn = some (Except.ok v0) → (cv.getNoDefault now).2 = false →
      (cv.getDefault now).1 = (v0, false, none) := by
    intro v0 hdf hg
    unfold CacheValue.getDefault
    rw [hg, hdf]
    rfl
  have hcvHit : (cv.getNoDefault now).2 = true →
      (cv.getDefault now).1 = ((cv.getNoDefault now).1, true, none) := by
    intro hg
    unfold CacheValue.getDefault
    rw [hg]
    rfl
  have hcvGetBool : ∀ (df : Except String T), cv.defaultFn = some df →
      (cv.get now).1.2.1 = (cv.getDefault now).1.2.2.isNone := by
    intro df hdf
    unfold CacheValue.get
    rw [hdf]
    cases he : (cv.getDefault now).1.2.2
    · show ((cv.getDefault now).1.2.1 || true) = true
      exact Bool.or_true _
    · rfl
  refine ⟨?_, ?_, ?_, ?_⟩
  · intro hgen hmiss
    have hgd := hcvOkBranch v hgen hmiss
    constructor
    · unfold CacheValue.get
      rw [hgen, hgd]
      rfl
    · rw [hgd]
  · cases hdf : cv.defaultFn with
    | none =>
        have hb0 : (cv.get now).1.2.1 = (cv.getNoDefault now).2 := by
          unfold CacheValue.get
          rw [hdf]
        rw [hb0]
        constructor
        · intro hb
          exact ⟨hb, Or.inl rfl⟩
        · intro hb
          exact hb.1
    | some df =>
        have hgb := hcvGetBool df hdf
        cases df with
        | error e =>
            cases hg : (cv.getNoDefault now).2
            · rw [hgb, hcvDefaultBranch e hdf hg]
              constructor
              · intro _
                exact ⟨rfl, Or.inr ⟨e, rfl⟩⟩
              · intro _
                rfl
            · rw [hgb, hcvHit hg]
              constructor
              · intro hb
                exact absurd hb (by simp)
              · intro hb
                exact absurd hb.1 (by simp)
        | ok v0 =>
            cases hg : (cv.getNoDefault now).2
            · rw [hgb, hcvOkBranch v0 hdf hg]
              constructor
              · intro hb
                exact absurd hb (by simp)
              · intro hb
                rcases hb.2 with h0 | ⟨e, he⟩
                · exact Option.noConfusion h0
                · exact Except.noConfusion (Option.some.inj he)
            · rw [hgb, hcvHit hg]
              constructor
              · intro hb
                exact absurd hb (by simp)
              · intro hb
                exact absurd hb.1 (by simp)
  · intro hcf hfk hmiss
    have hgball := getCacheValue_getNoDefault c key now
    have hcond : (((c.getCacheValue key).1).getNoDefault now).2 = false := by
      rw [hgball]
      exact hmiss
    have hgd : (c.getDefault key now).1 = (v, false, none) := by
      unfold Cache.getDefault
      rw [hcf, hcond]
      show ((match fn key with
        | Except.error e => ((default, false, some e), (c.getCacheValue key).2)
        | Except.ok v =>
            ((v, false, none),
              ((c.getCacheValue key).2).storeEntry key
                (((c.getCacheValue key).1.set now v).2)) :
        (T × Bool × Option String) × Cache K T)).1 = (v, false, none)
      rw [hfk]
    unfold Cache.get
    rw [hcf, hgd]
    rfl
  · cases hdc : c.defaultFn with
    | none =>
        have hb0 : (c.get key now).1.2.1 = (c.getNoDefault key now).2 := by
          unfold Cache.get
          rw [hdc]
        rw [hb0]
        constructor
        · intro hb
          exact ⟨hb, Or.inl rfl⟩
        · intro hb
          exact hb.1
    | some g =>
        have hcGetBool : (c.get key now).1.2.1
            = (c.getDefault key now).1.2.2.isNone := by
          unfold Cache.get
          rw [hdc]
          cases he : (c.getDefault key now).1.2.2
          · show ((c.getDefault key now).1.2.1 || true) = true
            exact Bool.or_true _
          · rfl
        have hgball := getCacheValue_getNoDefault c key now
        cases hg : (c.getNoDefault key now).2
        · have hcond : (((c.getCacheValue key).1).getNoDefault now).2 = false := by
            rw [hgball]
            exact hg
          cases hfk : g key with
          | error e =>
              have hgd : (c.getDefault key now).1 = (default, false, some e) := by
                unfold Cache.getDefault
                rw [hdc, hcond]
                show ((match g key with
                  | Except.error e => ((default, false, some e), (c.getCacheValue key).2)
                  | Except.ok v =>
                      ((v, false, none),
                        ((c.getCacheValue key).2).storeEntry key
                          (((c.getCacheValue key).1.set now v).2)) :
                  (T × Bool × Option String) × Cache K T)).1 = (default, false, some e)
                rw [hfk]
              rw [hcGetBool, hgd]
              constructor
              · intro _
                exact ⟨rfl, Or.inr ⟨g, e, rfl, hfk⟩⟩
              · intro _
                rfl
          | ok v0 =>
              have hgd : (c.getDefault key now).1 = (v0, false, none) := by
                unfold Cache.getDefault
                rw [hdc, hcond]
                show ((match g key with
                  | Except.error e => ((default, false, some e), (c.getCacheValue key).2)
                  | Except.ok v =>
                      ((v, false, none),
                        ((c.getCacheValue key).2).storeEntry key
                          (((c.getCacheValue key).1.set now v).2)) :
                  (T × Bool × Option String) × Cache K T)).1 = (v0, false, none)
                rw [hfk]
              rw [hcGetBool, hgd]
              constructor
              · intro hb
                exact absurd hb (by simp)
              · intro hb
                rcases hb.2 with h0 | ⟨g1, e, hge, hgke⟩
                · exact Option.noConfusion h0
                · have hg1 : g = g1 := Option.some.inj hge
                  rw [← hg1, hfk] at hgke
                  exact Except.noConfusion hgke
        · have hcond : (((c.getCacheValue key).1).getNoDefault now).2 = true := by
            rw [hgball]
            exact hg
          have hgd : (c.getDefault key now).1
              = ((((c.getCacheValue key).1).getNoDefault now).1, true, none) := by
            unfold Cache.getDefault
            rw [hdc, hcond]
            rfl
          rw [hcGetBool, hgd]
          constructor
          · intro hb
            exact absurd hb (by simp)
          · intro hb
            exact absurd hb.1 (by simp)

/-- C10, witness: a cold slot whose generator succeeds with 42 answers Get
with (42, true) although GetDefault reports it as freshly generated, and a
cold cache with no generator answers Get with false. -/
theorem get_reports_value_availability_witness :
    (CacheValue.get
        { value := (0 : Nat), expiresAt := 0,
          defaultFn := some (Except.ok 42), timeout := 0, hasValue := false } 3).1
      = (42, true, none)
    ∧ (CacheValue.getDefault
        { value := (0 : Nat), expiresAt := 0,
          defaultFn := some (Except.ok 42), timeout := 0, hasValue := false } 3).1.2.1
      = false := by
  have h := get_reports_value_availability
    { value := (0 : Nat), expiresAt := 0,
      defaultFn := some (Except.ok 42), timeout := 0, hasValue := false }
    { storage := fun _ : Nat => (none : Option (CacheValue Nat)), keyFn := none,
      defaultFn := none, timeout := 0 }
    1 3 42 (fun _ => Except.ok 42)
  exact h.1 rfl (by decide)

end Notstd
